import Mathlib

set_option maxRecDepth 100000

/-!
Shallow embedding of `src/app.py` (Maritime-News-Curator), covering the
utility functions (`clean`, `article_id`, `parse_date_safe`, `extract_image`,
`get_domain`) and the fetch/classify pipeline `fetch_articles_for_topic`.

Python strings are modelled as Lean `String` / `List Char`; Python `None`
as `Option.none`; Python dict `.get` defaults as `Option.getD`; the
network/feed-parsing library is abstracted by passing each URL's parse
outcome as a `ParseResult`; wall-clock "now" and the external fuzzy date
parser are explicit parameters.  All definitions are executable.
-/

namespace App

/-- Python truthiness of an optional string: `None` and `""` are falsy. -/
def truthyOpt (o : Option String) : Bool :=
  match o with
  | none => false
  | some s => s ≠ ""

/-- Python `str.lower()` restricted to the ASCII case mapping, on char lists. -/
def pyLower (l : List Char) : List Char :=
  l.map Char.toLower

/-- Python's `needle in haystack` substring test on char lists:
true iff `p` occurs contiguously inside `s`. -/
def strIn (p s : List Char) : Bool :=
  p.isPrefixOf s ||
    match s with
    | [] => false
    | _ :: t => strIn p t

/-- Whitespace characters removed by Python `str.strip()` (ASCII subset). -/
def isPySpace (c : Char) : Bool :=
  c = ' ' || c = '\t' || c = '\n' || c = '\r' || c = '\x0b' || c = '\x0c'

/-- Python `str.strip()` on char lists: drop whitespace from both ends. -/
def stripChars (l : List Char) : List Char :=
  ((l.dropWhile isPySpace).reverse.dropWhile isPySpace).reverse

/-- Python `str.strip()` on strings. -/
def pyStrip (s : String) : String :=
  String.mk (stripChars s.data)

/-- Python `str.replace(pat, repl)` on char lists: replace every
non-overlapping occurrence of `pat`, scanning left to right.
(Specialised to nonempty `pat`; for `pat = []` it returns `l` unchanged,
a case never reached by the embedded code.)  The fuel argument of the
auxiliary function — initialised to the list length, an invariant upper
bound on the remaining length — makes the recursion structural. -/
def replacePyAux (pat repl : List Char) : Nat → List Char → List Char
  | _, [] => []
  | 0, l => l
  | fuel + 1, c :: rest =>
    if pat.isPrefixOf (c :: rest) then
      repl ++ replacePyAux pat repl fuel ((c :: rest).drop pat.length)
    else
      c :: replacePyAux pat repl fuel rest

def replacePy (pat repl l : List Char) : List Char :=
  if pat.isEmpty then l else replacePyAux pat repl l.length l

/-- Model of the external HTML parsing library's `get_text()`: drop every
`<...>` tag region, keep the rest.  Only the branch structure of `clean`
matters for the claims; this stands in for BeautifulSoup.  The fuel
argument (initialised to the list length, an upper bound on the recursion
depth) makes the recursion structural. -/
def stripTagsAux : Nat → List Char → List Char
  | _, [] => []
  | 0, l => l
  | fuel + 1, '<' :: rest =>
    stripTagsAux fuel (rest.dropWhile (fun c => c ≠ '>') |>.drop 1)
  | fuel + 1, c :: rest => c :: stripTagsAux fuel rest

def stripTags (l : List Char) : List Char :=
  stripTagsAux l.length l

/-- `clean` from `src/app.py`: `str(text or "")`; strip markup only when the
string contains both `<` and `>`; otherwise return it stripped of
surrounding whitespace. -/
def clean (text : Option String) : String :=
  let s := text.getD ""
  if s.data.contains '<' && s.data.contains '>' then
    pyStrip (String.mk (stripTags s.data))
  else
    pyStrip s

/-! ### SHA-1 (model of `hashlib.sha1(...).hexdigest()`)

Machine words are `Nat` reduced mod `2 ^ 32`. -/

/-- Reduce mod 2^32. -/
def m32 (x : Nat) : Nat := x % 4294967296

/-- 32-bit left rotation. -/
def rotl (n x : Nat) : Nat :=
  m32 (x <<< n) ||| (m32 x >>> (32 - n))

/-- UTF-8 encoding of one character (model of Python `str.encode()`). -/
def utf8Char (c : Char) : List Nat :=
  let n := c.toNat
  if n < 128 then [n]
  else if n < 2048 then [192 + n / 64, 128 + n % 64]
  else if n < 65536 then [224 + n / 4096, 128 + (n / 64) % 64, 128 + n % 64]
  else [240 + n / 262144, 128 + (n / 4096) % 64, 128 + (n / 64) % 64, 128 + n % 64]

/-- UTF-8 bytes of a string. -/
def utf8 (s : String) : List Nat :=
  s.data.flatMap utf8Char

/-- Big-endian 8-byte encoding of a (bit-length) number. -/
def be8 (n : Nat) : List Nat :=
  [(n >>> 56) % 256, (n >>> 48) % 256, (n >>> 40) % 256, (n >>> 32) % 256,
   (n >>> 24) % 256, (n >>> 16) % 256, (n >>> 8) % 256, n % 256]

/-- SHA-1 padding: append `0x80`, zeros to 56 mod 64, then the bit length. -/
def sha1Pad (msg : List Nat) : List Nat :=
  let L := msg.length
  let z := (119 - (L % 64)) % 64
  msg ++ [128] ++ List.replicate z 0 ++ be8 (8 * L)

/-- Group bytes into big-endian 32-bit words. -/
def toWords : List Nat → List Nat
  | b0 :: b1 :: b2 :: b3 :: rest =>
      ((b0 <<< 24) + (b1 <<< 16) + (b2 <<< 8) + b3) :: toWords rest
  | _ => []

/-- Split a byte list into 64-byte chunks (fuel makes the recursion
structural; the initial fuel, the list length, bounds the depth). -/
def chunks64Aux : Nat → List Nat → List (List Nat)
  | _, [] => []
  | 0, l => [l]
  | fuel + 1, c :: rest => ((c :: rest).take 64) :: chunks64Aux fuel ((c :: rest).drop 64)

def chunks64 (l : List Nat) : List (List Nat) :=
  chunks64Aux l.length l

/-- SHA-1 message-schedule expansion: `acc` holds the words produced so far,
most recent first; `fuel` counts the words still to produce. -/
def sha1Sched : Nat → List Nat → List Nat
  | 0, acc => acc.reverse
  | fuel + 1, acc =>
    let w := rotl 1 (acc.getD 2 0 ^^^ acc.getD 7 0 ^^^ acc.getD 13 0 ^^^ acc.getD 15 0)
    sha1Sched fuel (w :: acc)

/-- SHA-1 round function. -/
def sha1F (t b c d : Nat) : Nat :=
  if t < 20 then (b &&& c) ||| ((b ^^^ 4294967295) &&& d)
  else if t < 40 then b ^^^ c ^^^ d
  else if t < 60 then (b &&& c) ||| (b &&& d) ||| (c &&& d)
  else b ^^^ c ^^^ d

/-- SHA-1 round constants. -/
def sha1K (t : Nat) : Nat :=
  if t < 20 then 1518500249
  else if t < 40 then 1859775393
  else if t < 60 then 2400959708
  else 3395469782

/-- One SHA-1 round. -/
def sha1Round (st : Nat × Nat × Nat × Nat × Nat) (tw : Nat × Nat) :
    Nat × Nat × Nat × Nat × Nat :=
  let (a, b, c, d, e) := st
  let (t, wt) := tw
  let temp := m32 (rotl 5 a + sha1F t b c d + e + sha1K t + wt)
  (temp, a, rotl 30 b, c, d)

/-- Process one 64-byte block, updating the five hash words. -/
def sha1Block (h : Nat × Nat × Nat × Nat × Nat) (block : List Nat) :
    Nat × Nat × Nat × Nat × Nat :=
  let (h0, h1, h2, h3, h4) := h
  let w16 := toWords block
  let w := sha1Sched 64 w16.reverse
  let (a, b, c, d, e) := w.enum.foldl sha1Round (h0, h1, h2, h3, h4)
  (m32 (h0 + a), m32 (h1 + b), m32 (h2 + c), m32 (h3 + d), m32 (h4 + e))

/-- Lowercase hex digit for a nibble: `0`–`9` then `a`–`f`. -/
def hexDigit (n : Nat) : Char :=
  if n < 10 then Char.ofNat (48 + n) else Char.ofNat (87 + n)

/-- 8 lowercase hex digits of a 32-bit word. -/
def hex8 (n : Nat) : List Char :=
  [hexDigit ((n >>> 28) % 16), hexDigit ((n >>> 24) % 16),
   hexDigit ((n >>> 20) % 16), hexDigit ((n >>> 16) % 16),
   hexDigit ((n >>> 12) % 16), hexDigit ((n >>> 8) % 16),
   hexDigit ((n >>> 4) % 16), hexDigit (n % 16)]

/-- SHA-1 hex digest of a byte list (model of `hashlib.sha1(...).hexdigest()`). -/
def sha1Hex (msg : List Nat) : String :=
  let (h0, h1, h2, h3, h4) :=
    (chunks64 (sha1Pad msg)).foldl sha1Block
      (1732584193, 4023233417, 2562383102, 271733878, 3285377520)
  String.mk (hex8 h0 ++ hex8 h1 ++ hex8 h2 ++ hex8 h3 ++ hex8 h4)

/-- `article_id` from `src/app.py`:
`hashlib.sha1(f"{title}{link}".encode()).hexdigest()`. -/
def article_id (title link : String) : String :=
  sha1Hex (utf8 (title ++ link))

/-! ### Date model -/

/-- Model of a Python `datetime`: an instant (seconds) plus an optional
timezone marker (`none` = naive).  `datetime.replace(tzinfo=timezone.utc)`
keeps the numeric value and sets the marker, i.e. reads a naive wall clock
as UTC. -/
structure PyDateTime where
  instant : Int
  tzinfo : Option Unit
deriving DecidableEq, Repr

/-- `parse_date_safe` from `src/app.py`.  `now` models
`datetime.now(timezone.utc)` (an aware instant) and `dparse` models the
external fuzzy parser `dateutil.parser.parse` (`none` = the call raised). -/
def parse_date_safe (now : Int) (dparse : String → Option PyDateTime)
    (s : String) : PyDateTime :=
  if s = "" then ⟨now, some ()⟩
  else
    match dparse s with
    | none => ⟨now, some ()⟩
    | some dt => if dt.tzinfo.isSome then dt else { dt with tzinfo := some () }

/-! ### Feed entries and image extraction -/

/-- One element of an entry's `media_content` / `media_thumbnail` list;
`url` is `dict.get("url")` (`none` = key absent). -/
structure MediaItem where
  url : Option String
deriving DecidableEq, Repr

/-- One element of an entry's `content` list; `value` is
`dict.get("value")`. -/
structure ContentItem where
  value : Option String
deriving DecidableEq, Repr

/-- A parsed feed entry.  String fields use `""` for an absent key
(the call sites all supply `""` as the `.get` default, and `""` and an
absent key are equally falsy where truthiness is tested). -/
structure Entry where
  title : String := ""
  summary : String := ""
  link : String := ""
  published : Option String := none
  updated : Option String := none
  media_content : List MediaItem := []
  media_thumbnail : List MediaItem := []
  content : List ContentItem := []
deriving DecidableEq, Repr

/-- The remainder of `l` strictly after the first occurrence of `p`,
or `none` when `p` does not occur. -/
def afterSub (p l : List Char) : Option (List Char) :=
  if p.isPrefixOf l then some (l.drop p.length)
  else
    match l with
    | [] => none
    | _ :: t => afterSub p t

/-- Model of the external HTML parsing library's
`soup.find("img")` + `img.get("src")`: the `src` attribute of the first
`img` tag (`none` = no `img` tag or no `src` attribute). -/
def findImgSrc (html : String) : Option String :=
  match afterSub "<img".data html.data with
  | none => none
  | some rest =>
    let tag := rest.takeWhile (fun c => c ≠ '>')
    match afterSub "src=\"".data tag with
    | none => none
    | some r2 => some (String.mk (r2.takeWhile (fun c => c ≠ '"')))

/-- `extract_image` from `src/app.py`: four strategies tried in order with
early return; `""` when none fires.  A guard like
`media and media[0].get("url")` is rendered as truthiness of
`media.head?.bind url`. -/
def extract_image (e : Entry) : String :=
  let mediaUrl := e.media_content.head?.bind MediaItem.url
  if truthyOpt mediaUrl then mediaUrl.getD ""
  else
    let thumbUrl := e.media_thumbnail.head?.bind MediaItem.url
    if truthyOpt thumbUrl then thumbUrl.getD ""
    else
      let fromSummary := if e.summary ≠ "" then findImgSrc e.summary else none
      if truthyOpt fromSummary then fromSummary.getD ""
      else
        let fromContent :=
          match e.content with
          | [] => none
          | c :: _ => findImgSrc (c.value.getD "")
        if truthyOpt fromContent then fromContent.getD ""
        else ""

/-- Model of `urllib.parse.urlparse(u).netloc`: the text after the first
`://`, up to the first `/`, `?` or `#`; `""` when the URL has no
`scheme://` part. -/
def netloc (u : String) : String :=
  match afterSub "://".data u.data with
  | none => ""
  | some rest => String.mk (rest.takeWhile (fun c => c ≠ '/' && c ≠ '?' && c ≠ '#'))

/-- `get_domain` from `src/app.py`:
`urlparse(u).netloc.lower().replace("www.", "")`.  The `except` branch of
the source is unreachable in the model since the model parser is total. -/
def get_domain (u : String) : String :=
  String.mk (replacePy "www.".data [] (pyLower (netloc u).data))

/-! ### The fetch/classify pipeline -/

/-- The value under one topic name in `topics.yaml`; `include_words`
models `data.get("include", [])` (`none` = key absent). -/
structure TopicData where
  include_words : Option (List String)
deriving DecidableEq, Repr

/-- The `topics` mapping of `topics.yaml`, in insertion order. -/
abbrev TopicConfig := List (String × TopicData)

/-- One keyword test of the classifier: `word.lower() in full_text.lower()`. -/
def keyword_hit (full_text word : String) : Bool :=
  strIn (pyLower word.data) (pyLower full_text.data)

/-- The classifier loop of `fetch_articles_for_topic` (lines 174–178):
collect, in configuration order, every topic one of whose `include`
keywords case-insensitively occurs in `full_text`. -/
def matched_topics_of (topics : TopicConfig) (full_text : String) : List String :=
  (topics.filter fun td => (td.2.include_words.getD []).any (keyword_hit full_text)).map
    Prod.fst

/-- Python `selected_topic in matched_topics` where `selected_topic` may be
`None`: `None` never equals a string, so the `none` case is `false`. -/
def pyOptMem (sel : Option String) (l : List String) : Bool :=
  match sel with
  | some t => l.contains t
  | none => false

/-- Python `entry.get("published") or entry.get("updated") or ""`:
first truthy value, else `""`. -/
def pyOrStr (a b : Option String) : String :=
  if truthyOpt a then a.getD "" else if truthyOpt b then b.getD "" else ""

/-- The article record built at lines 182–192 of `src/app.py`.  The
`"date"` field (`pub_dt.isoformat()`) is a rendering of `date_dt` and is
not modelled separately; `image or ""` is the identity since
`extract_image` already returns `""` on no match. -/
structure Article where
  id : String
  title : String
  summary : String
  link : String
  date_dt : PyDateTime
  topics : List String
  image : String
  domain : String
deriving DecidableEq, Repr

/-- The per-entry body of the fetch loop (lines 162–192): normalize,
age-filter, classify, select, build.  Returns `none` when the entry is
discarded (by age or by the selected-topic test). -/
def processEntry (topics : TopicConfig) (now : Int)
    (dparse : String → Option PyDateTime) (selected_topic : Option String)
    (max_age_days : Int) (entry : Entry) : Option Article :=
  let title := clean (some entry.title)
  let summary := clean (some entry.summary)
  let link := pyStrip entry.link
  let pub_dt := parse_date_safe now dparse (pyOrStr entry.published entry.updated)
  let age_days : ℚ := ((now - pub_dt.instant : Int) : ℚ) / 86400
  if age_days > (max_age_days : ℚ) then none
  else
    let full_text := title ++ " " ++ summary
    let matched_topics := matched_topics_of topics full_text
    if pyOptMem selected_topic matched_topics then
      some
        { id := article_id title link
          title := title
          summary := summary
          link := link
          date_dt := pub_dt
          topics := matched_topics
          image := extract_image entry
          domain := get_domain link }
    else none

/-- The outcome of `feedparser.parse(url)` for one source URL:
`failure` = the call raised (caught and skipped with a warning);
`success bozo entries` = a parse result with its bozo flag and entries. -/
inductive ParseResult where
  | failure : ParseResult
  | success (bozo : Bool) (entries : List Entry) : ParseResult
deriving DecidableEq, Repr

/-- The per-source body of the fetch loop (lines 153–192): a raised parse
is skipped; a bozo result with zero entries is skipped; otherwise every
entry is processed. -/
def processSource (topics : TopicConfig) (now : Int)
    (dparse : String → Option PyDateTime) (selected_topic : Option String)
    (max_age_days : Int) : ParseResult → List Article
  | .failure => []
  | .success bozo entries =>
    if bozo && entries.isEmpty then []
    else entries.filterMap (processEntry topics now dparse selected_topic max_age_days)

/-- `fetch_articles_for_topic` from `src/app.py`.  `sources` is the list of
per-URL parse outcomes for `feeds + google_feeds`, in order; articles are
accumulated source by source, entry by entry. -/
def fetch_articles_for_topic (topics : TopicConfig) (now : Int)
    (dparse : String → Option PyDateTime) (selected_topic : Option String)
    (max_age_days : Int) (sources : List ParseResult) : List Article :=
  sources.flatMap (processSource topics now dparse selected_topic max_age_days)

/-! ### Image-extraction strategies as the spec orders them -/

/-- The URL carried by the first element of a media list, if any. -/
def mediaFirstUrl (l : List MediaItem) : Option String :=
  l.head?.bind MediaItem.url

/-- Strategy 3 of the spec: the first `img src` in the summary markup
(only consulted when the summary is nonempty). -/
def summaryImg (e : Entry) : Option String :=
  if e.summary ≠ "" then findImgSrc e.summary else none

/-- Strategy 4 of the spec: the first `img src` in the first content
block's markup. -/
def contentImg (e : Entry) : Option String :=
  match e.content with
  | [] => none
  | c :: _ => findImgSrc (c.value.getD "")

/-- First truthy result of an ordered strategy list, `""` when none fires. -/
def firstTruthy : List (Option String) → String
  | [] => ""
  | o :: rest => if truthyOpt o then o.getD "" else firstTruthy rest

/-! ### Spec-side formulation of the derived domain -/

/-- The domain as the spec describes it: host portion of the link,
lowercased, with one leading `www.` (and only a leading one) stripped. -/
def spec_domain (u : String) : String :=
  let h := pyLower (netloc u).data
  if "www.".data.isPrefixOf h then String.mk (h.drop 4) else String.mk h

/-! ### Concrete fixtures used by witnesses -/

/-- A one-source batch containing a single fresh port-news entry. -/
def portSources : List ParseResult :=
  [ParseResult.success false [{ title := "Port congestion eases", link := "http://x" }]]

/-- The article the pipeline builds from `portSources` for topic `"Ports"`
at `now = 0` with an always-failing date parser (its `id` is the SHA-1 of
`"Port congestion easeshttp://x"`). -/
def portArticle : Article :=
  { id := "f70e4b99bd01f4ace6f015fb06ddea15cfbd03ac"
    title := "Port congestion eases"
    summary := ""
    link := "http://x"
    date_dt := ⟨0, some ()⟩
    topics := ["Ports"]
    image := ""
    domain := "x" }

/-! ### Helper lemmas -/

theorem age_gt_iff (Δ M : Int) : ((Δ : ℚ) / 86400 > (M : ℚ)) ↔ 86400 * M < Δ := by
  rw [gt_iff_lt, lt_div_iff₀ (by norm_num : (0:ℚ) < 86400)]
  rw [show ((M:ℚ) * 86400) = ((86400 * M : Int) : ℚ) by push_cast; ring]
  exact Int.cast_lt

theorem age_le_iff (Δ M : Int) : ((Δ : ℚ) / 86400 ≤ (M : ℚ)) ↔ Δ ≤ 86400 * M := by
  rw [div_le_iff₀ (by norm_num : (0:ℚ) < 86400)]
  rw [show ((M:ℚ) * 86400) = ((86400 * M : Int) : ℚ) by push_cast; ring]
  exact Int.cast_le

/-- `processEntry` with its floating-point age test
`(now − pub).total_seconds() / 86400 > max_age_days` (exact rational
semantics in the model) rewritten to the equivalent integer comparison,
so that concrete runs of the pipeline are kernel-computable. -/
theorem processEntry_char (topics : TopicConfig) (now : Int)
    (dparse : String → Option PyDateTime) (sel : Option String) (M : Int)
    (e : Entry) :
    processEntry topics now dparse sel M e =
      (let title := clean (some e.title)
       let summary := clean (some e.summary)
       let link := pyStrip e.link
       let pub_dt := parse_date_safe now dparse (pyOrStr e.published e.updated)
       if 86400 * M < now - pub_dt.instant then none
       else
         let matched_topics := matched_topics_of topics (title ++ " " ++ summary)
         if pyOptMem sel matched_topics then
           some
             { id := article_id title link
               title := title
               summary := summary
               link := link
               date_dt := pub_dt
               topics := matched_topics
               image := extract_image e
               domain := get_domain link }
         else none) := by
  unfold processEntry
  simp only []
  rw [if_congr (age_gt_iff _ M) rfl rfl]

/-- With no selected topic, Python's `None in matched_topics` membership
test is always false, so every entry is dropped. -/
theorem processEntry_none_of_sel_none (topics : TopicConfig) (now : Int)
    (dparse : String → Option PyDateTime) (M : Int) (e : Entry) :
    processEntry topics now dparse none M e = none := by
  rw [processEntry_char]
  simp only []
  split
  · rfl
  · simp [pyOptMem]

theorem processSource_none_of_sel_none (topics : TopicConfig) (now : Int)
    (dparse : String → Option PyDateTime) (M : Int) (s : ParseResult) :
    processSource topics now dparse none M s = [] := by
  cases s with
  | failure => rfl
  | success bozo entries =>
    simp [processSource, processEntry_none_of_sel_none]

theorem truthyOpt_none : truthyOpt none = false := rfl

theorem truthyOpt_some (s : String) : truthyOpt (some s) = decide (s ≠ "") := rfl

theorem strIn_iff_occurs (p s : List Char) : strIn p s = true ↔ p <:+: s := by
  induction s with
  | nil =>
    simp only [strIn, Bool.or_false, List.isPrefixOf_iff_prefix, List.prefix_nil,
      List.infix_nil]
  | cons c t ih =>
    simp only [strIn, Bool.or_eq_true, List.isPrefixOf_iff_prefix, ih,
      List.infix_cons_iff]

theorem keyword_hit_iff (full_text word : String) :
    keyword_hit full_text word = true ↔ pyLower word.data <:+: pyLower full_text.data := by
  simpa [keyword_hit] using strIn_iff_occurs (pyLower word.data) (pyLower full_text.data)

/-! ### Claims -/

/-- **C1**: for every configured topic with keyword list `K` and every entry
with normalized title `t` and summary `s`, the classifier includes the topic
in the entry's matched-topic list iff some keyword of `K`, case-folded, is a
substring of the case-folded blob `t ++ " " ++ s`; matches across topics are
independent, so the characterization is per topic and an entry may match
zero, one, or several topics. -/
theorem c1_topic_match_iff (topics : TopicConfig) (t s topic : String) :
    topic ∈ matched_topics_of topics (t ++ " " ++ s) ↔
      ∃ td : TopicData, (topic, td) ∈ topics ∧
        ∃ k ∈ td.include_words.getD [],
          pyLower k.data <:+: pyLower (t ++ " " ++ s).data := by
  simp only [matched_topics_of, List.mem_map, List.mem_filter]
  constructor
  · rintro ⟨⟨tp, td⟩, ⟨htp, hany⟩, rfl⟩
    rw [List.any_eq_true] at hany
    obtain ⟨k, hk, hhit⟩ := hany
    exact ⟨td, htp, k, hk, (keyword_hit_iff _ _).1 hhit⟩
  · rintro ⟨td, htd, k, hk, hinf⟩
    exact ⟨(topic, td), ⟨htd, List.any_eq_true.2 ⟨k, hk, (keyword_hit_iff _ _).2 hinf⟩⟩, rfl⟩

theorem c1_topic_match_iff_witness :
    "Ports" ∈ matched_topics_of [("Ports", ⟨some ["port"]⟩)]
      ("Port congestion eases" ++ " " ++ "") :=
  (c1_topic_match_iff [("Ports", ⟨some ["port"]⟩)] "Port congestion eases" "" "Ports").mpr
    ⟨⟨some ["port"]⟩, by decide, "port", by decide,
      (strIn_iff_occurs _ _).1 (by decide)⟩

/-- **C4** counterexample: the claim says `article_id` differs (with
overwhelming probability) whenever title or link differs, but the code
hashes the bare concatenation `f"{title}{link}"`, so the distinct pairs
`("ab", "c")` and `("a", "bc")` always collide. -/
theorem c4_article_id_counterexample :
    ("ab", "c") ≠ (("a", "bc") : String × String) ∧
      article_id "ab" "c" = article_id "a" "bc" :=
  ⟨by decide, rfl⟩

/-- **C4** (amended): `article_id` is deterministic (it is a pure function
of its inputs) and its value depends only on the concatenation
`title ++ link`; hence two calls agree whenever the concatenations agree,
even when both components differ, and distinctness can only be expected for
pairs with distinct concatenations. -/
theorem c4_article_id_concat_determined (t l t' l' : String)
    (h : t ++ l = t' ++ l') : article_id t l = article_id t' l' := by
  unfold article_id
  rw [h]

theorem c4_article_id_concat_determined_witness :
    ("ab" ++ "c" : String) = "a" ++ "bc" ∧
      article_id "ab" "c" = article_id "a" "bc" :=
  ⟨rfl, c4_article_id_concat_determined "ab" "c" "a" "bc" rfl⟩

/-- **C7**: `parse_date_safe` always yields a timezone-aware instant: a
parseable string without timezone information keeps its instant and is
marked UTC, while empty input or a parser failure yields the current UTC
instant (`now`) instead of an error (the model is total, so no exception
can escape). -/
theorem c7_parse_date_safe_tz (now : Int) (dparse : String → Option PyDateTime)
    (s : String) :
    (parse_date_safe now dparse s).tzinfo.isSome = true ∧
    (s = "" → parse_date_safe now dparse s = ⟨now, some ()⟩) ∧
    (s ≠ "" → dparse s = none → parse_date_safe now dparse s = ⟨now, some ()⟩) ∧
    (∀ dt, s ≠ "" → dparse s = some dt → dt.tzinfo = none →
      parse_date_safe now dparse s = ⟨dt.instant, some ()⟩) := by
  refine ⟨?_, ?_, ?_, ?_⟩
  · unfold parse_date_safe
    split
    · rfl
    · split
      · rfl
      · split
        · next h => simpa using h
        · rfl
  · intro h
    simp [parse_date_safe, h]
  · intro hs hd
    simp [parse_date_safe, hs, hd]
  · intro dt hs hd htz
    cases dt
    simp_all [parse_date_safe]

theorem c7_parse_date_safe_tz_witness :
    ("" : String) = "" ∧
      parse_date_safe 5 (fun _ => none) "" = ⟨5, some ()⟩ :=
  ⟨rfl, (c7_parse_date_safe_tz 5 (fun _ => none) "").2.1 rfl⟩

/-- **C2**: a source whose retrieval/parse raises, or whose parse result has
the fatal `bozo` flag and zero entries, is skipped entirely: the pipeline's
output over the full source list equals its output with the bad source
removed, i.e. exactly the union of the articles of the remaining sources.
The embedded pipeline is a total function, so no exception reaches the
caller. -/
theorem c2_bad_source_skipped (topics : TopicConfig) (now : Int)
    (dparse : String → Option PyDateTime) (sel : Option String) (M : Int)
    (pre post : List ParseResult) (bad : ParseResult)
    (h : bad = ParseResult.failure ∨ bad = ParseResult.success true []) :
    fetch_articles_for_topic topics now dparse sel M (pre ++ bad :: post) =
      fetch_articles_for_topic topics now dparse sel M (pre ++ post) := by
  unfold fetch_articles_for_topic
  rcases h with rfl | rfl <;> simp [processSource]

theorem c2_bad_source_skipped_witness :
    (ParseResult.failure = ParseResult.failure ∨
        ParseResult.failure = ParseResult.success true []) ∧
      fetch_articles_for_topic [("Ports", ⟨some ["port"]⟩)] 0 (fun _ => none)
          (some "Ports") 30
          ([ParseResult.success false [{ title := "Port alpha", link := "http://a" }]] ++
            ParseResult.failure ::
              [ParseResult.success false [{ title := "Port beta", link := "http://b" }]]) =
        fetch_articles_for_topic [("Ports", ⟨some ["port"]⟩)] 0 (fun _ => none)
          (some "Ports") 30
          ([ParseResult.success false [{ title := "Port alpha", link := "http://a" }]] ++
            [ParseResult.success false [{ title := "Port beta", link := "http://b" }]]) :=
  ⟨Or.inl rfl, c2_bad_source_skipped _ _ _ _ _ _ _ _ (Or.inl rfl)⟩

/-- **C6**: `extract_image` tries exactly the four strategies in the spec's
order — media attachment, media thumbnail, `img src` in the summary,
`img src` in the first content block — returning the first URL found and
`""` when none fires; in particular a present media-attachment URL wins
over an embedded `img` tag.  Totality of the embedding reflects that no
exception escapes on malformed markup or missing fields. -/
theorem c6_extract_image_priority (e : Entry) :
    extract_image e =
      firstTruthy [mediaFirstUrl e.media_content, mediaFirstUrl e.media_thumbnail,
        summaryImg e, contentImg e] ∧
    (∀ u, mediaFirstUrl e.media_content = some u → u ≠ "" →
      extract_image e = u) := by
  constructor
  · rfl
  · intro u hu hne
    unfold mediaFirstUrl at hu
    simp [extract_image, hu, truthyOpt, hne]

theorem c6_extract_image_priority_witness :
    mediaFirstUrl [⟨some "http://m.jpg"⟩] = some "http://m.jpg" ∧
    ("http://m.jpg" : String) ≠ "" ∧
    extract_image
        { media_content := [⟨some "http://m.jpg"⟩],
          summary := "<img src=\"http://i.jpg\">" } = "http://m.jpg" :=
  ⟨rfl, by decide,
    (c6_extract_image_priority
        { media_content := [⟨some "http://m.jpg"⟩],
          summary := "<img src=\"http://i.jpg\">" }).2
      "http://m.jpg" rfl (by decide)⟩

/-- **C10** (implicit): the extractor inspects only the first element of the
media-attachment list — when that element carries no truthy URL the whole
strategy is abandoned (the result is as if the list were empty), even when
a later element does carry a URL; the same holds for the thumbnail list. -/
theorem c10_only_first_media_inspected (e : Entry) :
    (∀ m rest, e.media_content = m :: rest → truthyOpt m.url = false →
      extract_image e = extract_image { e with media_content := [] }) ∧
    (∀ m rest, e.media_thumbnail = m :: rest → truthyOpt m.url = false →
      extract_image e = extract_image { e with media_thumbnail := [] }) := by
  constructor
  · intro m rest hmc hurl
    simp [extract_image, hmc, hurl, truthyOpt_none]
  · intro m rest hmt hurl
    cases htr : truthyOpt (e.media_content.head?.bind MediaItem.url) <;>
      simp [extract_image, hmt, hurl, htr, truthyOpt_none]

theorem c10_only_first_media_inspected_witness :
    (({ media_content := [⟨none⟩, ⟨some "http://later.jpg"⟩],
        summary := "<img src=\"http://s.jpg\">" } : Entry).media_content =
      (⟨none⟩ : MediaItem) :: [⟨some "http://later.jpg"⟩]) ∧
    truthyOpt (MediaItem.mk none).url = false ∧
    extract_image
        { media_content := [⟨none⟩, ⟨some "http://later.jpg"⟩],
          summary := "<img src=\"http://s.jpg\">" } =
      extract_image
        { ({ media_content := [⟨none⟩, ⟨some "http://later.jpg"⟩],
             summary := "<img src=\"http://s.jpg\">" } : Entry) with
          media_content := [] } :=
  ⟨rfl, rfl,
    (c10_only_first_media_inspected
        { media_content := [⟨none⟩, ⟨some "http://later.jpg"⟩],
          summary := "<img src=\"http://s.jpg\">" }).1
      ⟨none⟩ [⟨some "http://later.jpg"⟩] rfl rfl⟩

/-- **C3**: the age filter of the fetch loop retains an entry exactly when
its computed age `(now − pub) / 86400` days is at most `max_age_days`, and
discards it when the age is strictly greater.  Discarding happens for every
topic configuration and every selected topic — the filter runs during
fetch, before classification — and within the age bound an entry is dropped
only by the later selected-topic test. -/
theorem c3_age_filter (topics : TopicConfig) (now : Int)
    (dparse : String → Option PyDateTime) (sel : Option String) (M : Int)
    (e : Entry) :
    (((now - (parse_date_safe now dparse (pyOrStr e.published e.updated)).instant : Int) : ℚ) / 86400 ≤ (M : ℚ) →
      (processEntry topics now dparse sel M e).isSome =
        pyOptMem sel (matched_topics_of topics
          (clean (some e.title) ++ " " ++ clean (some e.summary)))) ∧
    (((now - (parse_date_safe now dparse (pyOrStr e.published e.updated)).instant : Int) : ℚ) / 86400 > (M : ℚ) →
      processEntry topics now dparse sel M e = none) := by
  constructor
  · intro h
    have hint : now - (parse_date_safe now dparse (pyOrStr e.published e.updated)).instant ≤ 86400 * M :=
      (age_le_iff _ M).1 h
    rw [processEntry_char]
    simp only []
    rw [if_neg (by omega : ¬ 86400 * M < now - (parse_date_safe now dparse (pyOrStr e.published e.updated)).instant)]
    cases hm : pyOptMem sel (matched_topics_of topics
      (clean (some e.title) ++ " " ++ clean (some e.summary))) <;> simp [hm]
  · intro h
    rw [processEntry_char]
    simp only []
    rw [if_pos ((age_gt_iff _ M).1 h)]

theorem c3_age_filter_witness :
    ((2592000 - (parse_date_safe 2592000 (fun _ => some ⟨0, some ()⟩)
        (pyOrStr (some "x") none)).instant : Int) : ℚ) / 86400 ≤ (30 : ℚ) ∧
    (processEntry [("Ports", ⟨some ["port"]⟩)] 2592000 (fun _ => some ⟨0, some ()⟩)
        (some "Ports") 30
        { title := "Port congestion eases", link := "http://x",
          published := some "x" }).isSome = true := by
  have h : ((2592000 - (parse_date_safe 2592000 (fun _ => some ⟨0, some ()⟩)
      (pyOrStr (some "x") none)).instant : Int) : ℚ) / 86400 ≤ (30 : ℚ) := by
    rw [show parse_date_safe 2592000 (fun _ => some ⟨0, some ()⟩)
      (pyOrStr (some "x") none) = ⟨0, some ()⟩ from rfl]
    norm_num
  refine ⟨h, ?_⟩
  exact ((c3_age_filter [("Ports", ⟨some ["port"]⟩)] 2592000
      (fun _ => some ⟨0, some ()⟩) (some "Ports") 30
      { title := "Port congestion eases", link := "http://x",
        published := some "x" }).1 h).trans (by decide)

/-- **C5** counterexample: the claim says a fetch with no target topic
retains every age-passing entry, tagging unmatched ones "uncategorized";
but the code's membership test `selected_topic in matched_topics` is
always false for `None`, so a no-target fetch returns nothing at all even
for an entry of age 0 that matches a topic. -/
theorem c5_no_target_counterexample :
    fetch_articles_for_topic [("Ports", ⟨some ["port"]⟩)] 0 (fun _ => none) none 30
        [ParseResult.success false
          [{ title := "Port congestion eases", link := "http://x" }]] = [] ∧
    ((0 - (parse_date_safe 0 (fun _ => none) (pyOrStr none none)).instant : Int) : ℚ) / 86400 ≤ (30 : ℚ) := by
  constructor
  · simp [fetch_articles_for_topic, processSource_none_of_sel_none]
  · norm_num [parse_date_safe, pyOrStr, truthyOpt]

/-- **C5** (amended): with no target topic the pipeline retains nothing
(the `None` target never occurs in a matched-topic list, and there is no
"uncategorized" tagging in this code); with a target topic it retains
exactly the age-passing entries whose matched-topic set contains the
target, and every returned article's topic list contains the target. -/
theorem c5_target_selection (topics : TopicConfig) (now : Int)
    (dparse : String → Option PyDateTime) (M : Int) :
    (∀ sources, fetch_articles_for_topic topics now dparse none M sources = []) ∧
    (∀ t e, (processEntry topics now dparse (some t) M e).isSome =
        (decide (((now - (parse_date_safe now dparse (pyOrStr e.published e.updated)).instant : Int) : ℚ) / 86400 ≤ (M : ℚ)) &&
          (matched_topics_of topics
            (clean (some e.title) ++ " " ++ clean (some e.summary))).contains t)) ∧
    (∀ t a sources,
      a ∈ fetch_articles_for_topic topics now dparse (some t) M sources →
        t ∈ a.topics) := by
  refine ⟨?_, ?_, ?_⟩
  · intro sources
    simp [fetch_articles_for_topic, processSource_none_of_sel_none]
  · intro t e
    rw [processEntry_char]
    simp only []
    split
    · next hgt =>
      have hnle : ¬ ((now - (parse_date_safe now dparse (pyOrStr e.published e.updated)).instant : Int) : ℚ) / 86400 ≤ (M : ℚ) := by
        rw [age_le_iff]
        omega
      rw [Option.isSome_none, decide_eq_false hnle, Bool.false_and]
    · next hle =>
      have hisle : ((now - (parse_date_safe now dparse (pyOrStr e.published e.updated)).instant : Int) : ℚ) / 86400 ≤ (M : ℚ) := by
        rw [age_le_iff]
        omega
      cases hm : pyOptMem (some t) (matched_topics_of topics
          (clean (some e.title) ++ " " ++ clean (some e.summary))) <;>
        simp_all [pyOptMem]
  · intro t a sources h
    rw [fetch_articles_for_topic, List.mem_flatMap] at h
    obtain ⟨src, _, ha⟩ := h
    cases src with
    | failure => simp [processSource] at ha
    | success bozo entries =>
      simp only [processSource] at ha
      split at ha
      · simp at ha
      · rw [List.mem_filterMap] at ha
        obtain ⟨e, _, hpe⟩ := ha
        rw [processEntry_char] at hpe
        simp only [] at hpe
        split at hpe
        · exact absurd hpe (by simp)
        · split at hpe
          · next hc =>
            cases hpe
            simp only [pyOptMem] at hc
            exact List.elem_iff.1 hc
          · exact absurd hpe (by simp)

theorem c5_target_selection_witness :
    portArticle ∈
      fetch_articles_for_topic [("Ports", ⟨some ["port"]⟩)] 0 (fun _ => none)
        (some "Ports") 30 portSources ∧
    "Ports" ∈ portArticle.topics := by
  have hmem : portArticle ∈
      fetch_articles_for_topic [("Ports", ⟨some ["port"]⟩)] 0 (fun _ => none)
        (some "Ports") 30 portSources := by
    have heq : fetch_articles_for_topic [("Ports", ⟨some ["port"]⟩)] 0
        (fun _ => none) (some "Ports") 30 portSources = [portArticle] := by
      have hpe : processEntry [("Ports", ⟨some ["port"]⟩)] 0 (fun _ => none)
          (some "Ports") 30 { title := "Port congestion eases", link := "http://x" } =
          some portArticle := by
        rw [processEntry_char]
        decide
      simp [fetch_articles_for_topic, portSources, processSource, hpe]
    rw [heq]
    exact List.mem_singleton.mpr rfl
  exact ⟨hmem,
    (c5_target_selection [("Ports", ⟨some ["port"]⟩)] 0 (fun _ => none) 30).2.2
      "Ports" portArticle portSources hmem⟩

theorem dropWhile_head_false (p : Char → Bool) (l : List Char) (x : Char)
    (h : (l.dropWhile p).head? = some x) : p x = false := by
  induction l with
  | nil => simp at h
  | cons c t ih =>
    rw [List.dropWhile_cons] at h
    split at h
    · exact ih h
    · next hp =>
      simp only [List.head?_cons, Option.some.injEq] at h
      rw [← h]
      simpa using hp

theorem stripChars_idem (l : List Char) : stripChars (stripChars l) = stripChars l := by
  unfold stripChars
  have hA : ((l.dropWhile isPySpace).reverse.dropWhile isPySpace).reverse.dropWhile isPySpace =
      ((l.dropWhile isPySpace).reverse.dropWhile isPySpace).reverse := by
    obtain ⟨t, ht⟩ := List.dropWhile_suffix (l := (l.dropWhile isPySpace).reverse) isPySpace
    have hd1eq : l.dropWhile isPySpace =
        ((l.dropWhile isPySpace).reverse.dropWhile isPySpace).reverse ++ t.reverse := by
      have hcong := congrArg List.reverse ht
      simpa using hcong.symm
    cases hrev : ((l.dropWhile isPySpace).reverse.dropWhile isPySpace).reverse with
    | nil => simp
    | cons x xs =>
      have hx : (l.dropWhile isPySpace).head? = some x := by
        rw [hd1eq, hrev]
        simp
      have hpx : isPySpace x = false := dropWhile_head_false isPySpace l x hx
      rw [List.dropWhile_cons, if_neg (by simp [hpx])]
  rw [hA, List.reverse_reverse, List.dropWhile_idempotent]

theorem mem_of_mem_stripChars (x : Char) (l : List Char) (h : x ∈ stripChars l) :
    x ∈ l := by
  unfold stripChars at h
  rw [List.mem_reverse] at h
  have h1 : x ∈ (l.dropWhile isPySpace).reverse :=
    ((List.dropWhile_suffix isPySpace).sublist).mem h
  rw [List.mem_reverse] at h1
  exact ((List.dropWhile_suffix isPySpace).sublist).mem h1

/-- **C8**: `clean` maps an absent input to `""`, and on any string that
does not contain both `<` and `>` it returns the whitespace-trimmed input
unchanged; hence it is idempotent on already-plain text.  The embedding is
total, so no error is raised. -/
theorem c8_clean_plain_idempotent :
    clean none = "" ∧
    ∀ s : String, (s.data.contains '<' && s.data.contains '>') = false →
      clean (some s) = pyStrip s ∧ clean (some (clean (some s))) = clean (some s) := by
  refine ⟨rfl, ?_⟩
  intro s h
  have hcl : clean (some s) = pyStrip s := by
    unfold clean
    simp only [Option.getD_some]
    rw [if_neg (by rw [h]; simp)]
  have hmemsub : ∀ c : Char, c ∈ (pyStrip s).data → c ∈ s.data := by
    intro c hc
    have hc2 : c ∈ stripChars s.data := hc
    exact mem_of_mem_stripChars c s.data hc2
  have h2 : ((pyStrip s).data.contains '<' && (pyStrip s).data.contains '>') = false := by
    cases hlt : (pyStrip s).data.contains '<' with
    | false => simp
    | true =>
      cases hgt : (pyStrip s).data.contains '>' with
      | false => simp
      | true =>
        exfalso
        have m1 : '<' ∈ s.data := hmemsub '<' (List.elem_iff.1 hlt)
        have m2 : '>' ∈ s.data := hmemsub '>' (List.elem_iff.1 hgt)
        have hcontr : (s.data.contains '<' && s.data.contains '>') = true := by
          simp [m1, m2]
        simp_all
  refine ⟨hcl, ?_⟩
  rw [hcl]
  unfold clean
  simp only [Option.getD_some]
  rw [if_neg (by rw [h2]; simp)]
  unfold pyStrip
  rw [show (String.mk (stripChars s.data)).data = stripChars s.data from rfl]
  rw [stripChars_idem]

theorem c8_clean_plain_idempotent_witness :
    (("  hello  " : String).data.contains '<' &&
      ("  hello  " : String).data.contains '>') = false ∧
    clean (some "  hello  ") = pyStrip "  hello  " ∧
    clean (some (clean (some "  hello  "))) = clean (some "  hello  ") :=
  ⟨by decide, (c8_clean_plain_idempotent).2 "  hello  " (by decide)⟩

theorem replacePyAux_id_of_not_strIn (pat repl : List Char) :
    ∀ (l : List Char) (fuel : Nat), strIn pat l = false →
      replacePyAux pat repl fuel l = l := by
  intro l
  induction l with
  | nil =>
    intro fuel h
    cases fuel <;> rfl
  | cons c rest ih =>
    intro fuel h
    cases fuel with
    | zero => rfl
    | succ f =>
      simp only [strIn, Bool.or_eq_false_iff] at h
      obtain ⟨h1, h2⟩ := h
      simp only [replacePyAux]
      rw [if_neg (by simp [h1])]
      rw [ih f h2]

/-- **C9** counterexample: the claim says only a leading `www.` is
stripped, but the code's `replace("www.", "")` removes every occurrence:
for the link `https://nowww.example.com/a` the code yields
`noexample.com`, not the spec's `nowww.example.com`. -/
theorem c9_domain_counterexample :
    get_domain "https://nowww.example.com/a" = "noexample.com" ∧
    spec_domain "https://nowww.example.com/a" = "nowww.example.com" ∧
    get_domain "https://nowww.example.com/a" ≠
      spec_domain "https://nowww.example.com/a" :=
  ⟨by decide, by decide, by decide⟩

/-- **C9** (amended): `get_domain` removes every non-overlapping
occurrence of `"www."` (scanning left to right) from the lowercased host,
not only a leading one; the spec's leading-only description is therefore
correct exactly for links whose lowercased host contains no `"www."`
occurrence beyond an optional leading prefix, as hypothesised here. -/
theorem c9_domain_leading_www (u : String)
    (h : strIn "www.".data
        (if "www.".data.isPrefixOf (pyLower (netloc u).data)
         then (pyLower (netloc u).data).drop 4
         else pyLower (netloc u).data) = false) :
    get_domain u = spec_domain u := by
  unfold get_domain spec_domain
  simp only []
  by_cases hp : "www.".data.isPrefixOf (pyLower (netloc u).data)
  · rw [if_pos hp] at h ⊢
    obtain ⟨t, ht⟩ := List.isPrefixOf_iff_prefix.1 hp
    have hdrop : (pyLower (netloc u).data).drop 4 = t := by
      rw [← ht]
      exact List.drop_left "www.".data t
    rw [hdrop] at h
    rw [replacePy, if_neg (by decide)]
    rw [hdrop, ← ht]
    show String.mk (replacePyAux "www.".data []
      ((t.length + 3) + 1) ('w' :: 'w' :: 'w' :: '.' :: t)) = String.mk t
    have hstep : replacePyAux "www.".data [] ((t.length + 3) + 1)
        ('w' :: 'w' :: 'w' :: '.' :: t) =
        replacePyAux "www.".data [] (t.length + 3) t := by
      simp only [replacePyAux]
      rw [if_pos (show (['w', 'w', 'w', '.'] : List Char).isPrefixOf
          ('w' :: 'w' :: 'w' :: '.' :: t) = true from
        List.isPrefixOf_iff_prefix.2 ⟨t, rfl⟩)]
      rw [List.nil_append]
      rw [show List.drop (['w', 'w', 'w', '.'] : List Char).length
          ('w' :: 'w' :: 'w' :: '.' :: t) = t from rfl]
    rw [hstep, replacePyAux_id_of_not_strIn "www.".data [] t _ h]
  · rw [if_neg hp] at h ⊢
    rw [replacePy, if_neg (by decide)]
    rw [replacePyAux_id_of_not_strIn "www.".data [] _ _ h]

theorem c9_domain_leading_www_witness :
    strIn "www.".data
        (if "www.".data.isPrefixOf (pyLower (netloc "https://www.Example.com/p").data)
         then (pyLower (netloc "https://www.Example.com/p").data).drop 4
         else pyLower (netloc "https://www.Example.com/p").data) = false ∧
    get_domain "https://www.Example.com/p" = spec_domain "https://www.Example.com/p" :=
  ⟨by decide, c9_domain_leading_www "https://www.Example.com/p" (by decide)⟩

end App
